import Mathlib

/-!
# ACIFA driver (`avr32/drivers/acifa/acifa.c`)

A shallow embedding of the analog comparator interface driver for AVR UC3.

* The register block `avr32_acifa_t` is a record holding one 32-bit value for every
  register the driver names (`confa`, `confb`, `wconf`, `sut`, `scfa`, `scfb`, `en`,
  `dis`, `sr`, `scr`, `ier`), and the interrupt mask `imr`.  A store `acifa->r = v` to a
  read/write register, to `en` or to `dis` is a record update.
* The stores to the command registers `scr` and `ier` go through `store_scr` and
  `store_ier`, which record the stored value and apply the effect the specification
  gives for it (flags cleared in `sr`, sources added to `imr`).
* The constants of `acifa.h` and of the part header (`AVR32_ACIFA_*_OFFSET`,
  `AVR32_ACIFA_*_MASK`, `ACIFA_COMP_SELA`, ...) are not part of the sources; they are
  the fields of `Hdr`, and every driver function takes the header as its first argument.
* `uint8_t` and `uint32_t` parameters are natural numbers reduced modulo `2^8` and
  `2^32` on entry, which is the conversion a C call performs.
* The busy-wait loops of `acifa_start` and `acifa_start_window` read a volatile
  register; the values returned by successive reads are given by a stream
  `Nat → Nat`, and the loops take a fuel argument bounding the number of reads.
-/

namespace AcifaDriver

/-! ## Bit fields -/

/-- A bit field of a 32-bit register, given by the `_OFFSET` and `_SIZE` constants of
the part header. -/
structure Field where
  offset : Nat
  size : Nat
deriving DecidableEq, Repr

/-- The `_MASK` constant of a field: `size` ones starting at bit `offset`, as a 32-bit
constant. -/
def Field.mask (f : Field) : Nat := ((2 ^ f.size - 1) <<< f.offset) % 2 ^ 32

/-- The expression `(v << OFFSET) & MASK` in 32-bit arithmetic. -/
def Field.ins (f : Field) (v : Nat) : Nat := ((v <<< f.offset) % 2 ^ 32) &&& f.mask

/-- Decoding a field of a register value: `(r & MASK) >> OFFSET`. -/
def Field.ext (f : Field) (r : Nat) : Nat := (r &&& f.mask) >>> f.offset

/-- A bit-field store `REG.field = v`: the bits of the field are replaced by the low
`size` bits of `v`, the other bits of the register are kept. -/
def Field.store (f : Field) (r v : Nat) : Nat := (r ^^^ (r &&& f.mask)) ||| f.ins v

/-- The field lies inside a 32-bit register. -/
def Field.fits32 (f : Field) : Prop := f.offset + f.size ≤ 32

/-- Two fields share no bit. -/
def Field.disjoint (f g : Field) : Prop :=
  f.offset + f.size ≤ g.offset ∨ g.offset + g.size ≤ f.offset

instance (f : Field) : Decidable f.fits32 := by
  unfold Field.fits32; infer_instance

instance (f g : Field) : Decidable (f.disjoint g) := by
  unfold Field.disjoint; infer_instance

/-! ## Header constants -/

/-- The constants the driver takes from `acifa.h` and from the part header.  A `Field`
stands for an `_OFFSET`/`_MASK` pair (or for a bit field of the `CONFA`/`CONFB` register
structure); a field named `_MASK` is a plain 32-bit mask constant. -/
structure Hdr where
  ACIFA_COMP_SELA : Nat
  ACIFA_COMP_SELB : Nat
  ACIFA_VCCSCALE_SELA : Nat
  CONFA_INSELP : Field
  CONFA_INSELN : Field
  CONFB_INSELP : Field
  CONFB_INSELN : Field
  CONFA_HS : Field
  CONFB_HS : Field
  CONFA_IS : Field
  CONFB_IS : Field
  CONFA_OEN_MASK : Nat
  CONFB_OEN_MASK : Nat
  WCONF_WINSEL : Field
  SCFA_SCALEFACTOR : Field
  SCFB_SCALEFACTOR : Field
  SCFA_EN_MASK : Nat
  SCFB_EN_MASK : Nat
  EN_ACAEN_MASK : Nat
  EN_ACACPEN_MASK : Nat
  EN_ACBEN_MASK : Nat
  EN_ACBCPEN_MASK : Nat
  EN_WFEN_MASK : Nat
  DIS_ACADIS_MASK : Nat
  DIS_ACACPDIS_MASK : Nat
  DIS_ACBDIS_MASK : Nat
  DIS_ACBCPDIS_MASK : Nat
  SR_ACARDY_MASK : Nat
  SR_ACBRDY_MASK : Nat
  SR_WFRDY_MASK : Nat
  SR_ACACS_MASK : Nat
  SR_ACBCS_MASK : Nat
  SR_WFCS_MASK : Nat
deriving DecidableEq, Repr

/-- A concrete header in the UC3 style, used to instantiate the statements below at
concrete inputs.  No proof depends on these particular values. -/
def hdr0 : Hdr where
  ACIFA_COMP_SELA := 1
  ACIFA_COMP_SELB := 2
  ACIFA_VCCSCALE_SELA := 1
  CONFA_INSELP := ⟨8, 4⟩
  CONFA_INSELN := ⟨16, 4⟩
  CONFB_INSELP := ⟨8, 4⟩
  CONFB_INSELN := ⟨16, 4⟩
  CONFA_HS := ⟨24, 2⟩
  CONFB_HS := ⟨24, 2⟩
  CONFA_IS := ⟨0, 2⟩
  CONFB_IS := ⟨0, 2⟩
  CONFA_OEN_MASK := 0x80
  CONFB_OEN_MASK := 0x80
  WCONF_WINSEL := ⟨0, 3⟩
  SCFA_SCALEFACTOR := ⟨0, 4⟩
  SCFB_SCALEFACTOR := ⟨0, 4⟩
  SCFA_EN_MASK := 0x10000
  SCFB_EN_MASK := 0x10000
  EN_ACAEN_MASK := 0x1
  EN_ACACPEN_MASK := 0x10
  EN_ACBEN_MASK := 0x2
  EN_ACBCPEN_MASK := 0x20
  EN_WFEN_MASK := 0x10000
  DIS_ACADIS_MASK := 0x1
  DIS_ACACPDIS_MASK := 0x10
  DIS_ACBDIS_MASK := 0x2
  DIS_ACBCPDIS_MASK := 0x20
  SR_ACARDY_MASK := 0x10
  SR_ACBRDY_MASK := 0x20
  SR_WFRDY_MASK := 0x40
  SR_ACACS_MASK := 0x1
  SR_ACBCS_MASK := 0x2
  SR_WFCS_MASK := 0x4

/-! ## Register block -/

/-- The registers of `avr32_acifa_t` the driver touches, one 32-bit value each, and the
interrupt mask.  `confa` to `scfb` are read/write registers.  `en`, `dis`, `scr` and `ier`
are command registers: the record holds the value last stored in them.  `sr` holds the
status flags and `imr` the interrupt sources that are enabled; the driver stores to
neither, they change through `store_scr` and `store_ier`. -/
structure avr32_acifa_t where
  confa : Nat
  confb : Nat
  wconf : Nat
  sut : Nat
  scfa : Nat
  scfb : Nat
  en : Nat
  dis : Nat
  sr : Nat
  scr : Nat
  ier : Nat
  imr : Nat
deriving DecidableEq, Repr

/-- The register block with every register zero. -/
def regs0 : avr32_acifa_t := ⟨0, 0, 0, 0, 0, 0, 0, 0, 0, 0, 0, 0⟩

/-- Modelled from the spec: the effect of a store to the status-clear register `scr`.
The declaration of the register block and the peripheral behind it are not part of the
sources.  The spec describes the status flags as "cleared by explicit acknowledgment
(write-to-clear with a caller-supplied mask), not by reading": the flags named in the
stored value are cleared, the other flags are kept. -/
def store_scr (acifa : avr32_acifa_t) (v : Nat) : avr32_acifa_t :=
  { acifa with scr := v, sr := acifa.sr ^^^ (acifa.sr &&& v) }

/-- Modelled from the spec: the effect of a store to the interrupt-enable register `ier`.
The declaration of the register block and the peripheral behind it are not part of the
sources.  The spec describes the store as one that "unmasks the named interrupt sources"
and is a "masked set, not full-register overwrite": the sources named in the stored
value are added to the interrupt mask `imr`, the other sources are kept. -/
def store_ier (acifa : avr32_acifa_t) (v : Nat) : avr32_acifa_t :=
  { acifa with ier := v, imr := acifa.imr ||| v }

/-! ## Driver functions -/

/-- Source function `acifa_configure`: Normal Mode configuration of one comparator. -/
def acifa_configure (h : Hdr) (acifa : avr32_acifa_t)
    (comp_sel input_p input_n pb_hz : Nat) : avr32_acifa_t :=
  let a1 :=
    if comp_sel % 256 = h.ACIFA_COMP_SELA then
      { acifa with
        confa := h.CONFA_INSELP.ins (input_p % 256) ||| h.CONFA_INSELN.ins (input_n % 256) }
    else
      { acifa with
        confb := h.CONFB_INSELP.ins (input_p % 256) ||| h.CONFB_INSELN.ins (input_n % 256) }
  { a1 with sut := (pb_hz % 2 ^ 32) / 100000 }

/-- Source function `acifa_configure_window`: Window Mode configuration. -/
def acifa_configure_window (h : Hdr) (acifa : avr32_acifa_t)
    (input_p input_n common_input pb_hz : Nat) : avr32_acifa_t :=
  let a1 := { acifa with wconf := acifa.wconf ||| h.WCONF_WINSEL.ins (common_input % 256) }
  let a2 := { a1 with confa := h.CONFA_INSELP.ins (input_p % 256) }
  let a3 := { a2 with confb := h.CONFB_INSELN.ins (input_n % 256) }
  { a3 with sut := (pb_hz % 2 ^ 32) / 100000 }

/-- Source function `acifa_enable_output`: enable the output of one comparator. -/
def acifa_enable_output (h : Hdr) (acifa : avr32_acifa_t) (comp_sel : Nat) : avr32_acifa_t :=
  if comp_sel % 256 = h.ACIFA_COMP_SELA then
    { acifa with confa := acifa.confa ||| h.CONFA_OEN_MASK }
  else
    { acifa with confb := acifa.confb ||| h.CONFB_OEN_MASK }

/-- Source function `acifa_configure_hysteresis`: hysteresis level of one comparator. -/
def acifa_configure_hysteresis (h : Hdr) (acifa : avr32_acifa_t)
    (comp_sel level : Nat) : avr32_acifa_t :=
  if comp_sel % 256 = h.ACIFA_COMP_SELA then
    { acifa with confa := acifa.confa ||| h.CONFA_HS.ins (level % 256) }
  else
    { acifa with confb := acifa.confb ||| h.CONFB_HS.ins (level % 256) }

/-- Source function `acifa_configure_vccscale`: VCC scale of one comparator.  In C, `|`
binds tighter than `|=`, so the enable mask is part of the value or-ed into the
register. -/
def acifa_configure_vccscale (h : Hdr) (acifa : avr32_acifa_t)
    (vcc_sel scale : Nat) : avr32_acifa_t :=
  if vcc_sel % 256 = h.ACIFA_VCCSCALE_SELA then
    { acifa with
      scfa := acifa.scfa ||| (h.SCFA_SCALEFACTOR.ins (scale % 256) ||| h.SCFA_EN_MASK) }
  else
    { acifa with
      scfb := acifa.scfb ||| (h.SCFB_SCALEFACTOR.ins (scale % 256) ||| h.SCFB_EN_MASK) }

/-- Source function `acifa_is_aca_ready`, applied to the value a read of `sr` returned. -/
def acifa_is_aca_ready (h : Hdr) (sr : Nat) : Bool := (sr &&& h.SR_ACARDY_MASK) != 0

/-- Source function `acifa_is_acb_ready`, applied to the value a read of `sr` returned. -/
def acifa_is_acb_ready (h : Hdr) (sr : Nat) : Bool := (sr &&& h.SR_ACBRDY_MASK) != 0

/-- Source function `acifa_is_wf_ready`, applied to the value a read of `sr` returned. -/
def acifa_is_wf_ready (h : Hdr) (sr : Nat) : Bool := (sr &&& h.SR_WFRDY_MASK) != 0

/-- Source function `acifa_is_aca_inp_higher`, applied to the value a read of `sr`
returned. -/
def acifa_is_aca_inp_higher (h : Hdr) (sr : Nat) : Bool := (sr &&& h.SR_ACACS_MASK) != 0

/-- Source function `acifa_is_acb_inp_higher`, applied to the value a read of `sr`
returned. -/
def acifa_is_acb_inp_higher (h : Hdr) (sr : Nat) : Bool := (sr &&& h.SR_ACBCS_MASK) != 0

/-- Source function `acifa_is_ci_inside_window`, applied to the value a read of `sr`
returned. -/
def acifa_is_ci_inside_window (h : Hdr) (sr : Nat) : Bool := (sr &&& h.SR_WFCS_MASK) != 0

/-- The loop `while (!ready(acifa)) { }`.  `srs n` is the value the `n`-th read of the
status register returns, `k` the number of reads already done, `fuel` a bound on the
number of reads of this loop.  The result is the number of reads done when the loop
exits, `none` when the fuel runs out first. -/
def busy_wait (ready : Nat → Bool) (srs : Nat → Nat) : Nat → Nat → Option Nat
  | 0, _ => none
  | fuel + 1, k => if ready (srs k) then some (k + 1) else busy_wait ready srs fuel (k + 1)

/-- Source function `acifa_start`: one store to `en`, then the busy-wait loop(s); the
second loop of the last branch goes on reading where the first one stopped, and `fuel`
bounds each loop.  The result is the register block together with the number of status
reads performed. -/
def acifa_start (h : Hdr) (fuel : Nat) (srs : Nat → Nat) (acifa : avr32_acifa_t)
    (comp_sel : Nat) : Option (avr32_acifa_t × Nat) :=
  if comp_sel % 256 = h.ACIFA_COMP_SELA then
    let a1 := { acifa with en := h.EN_ACAEN_MASK ||| h.EN_ACACPEN_MASK }
    (busy_wait (acifa_is_aca_ready h) srs fuel 0).map (fun k => (a1, k))
  else if comp_sel % 256 = h.ACIFA_COMP_SELB then
    let a1 := { acifa with en := h.EN_ACBEN_MASK ||| h.EN_ACBCPEN_MASK }
    (busy_wait (acifa_is_acb_ready h) srs fuel 0).map (fun k => (a1, k))
  else
    let a1 := { acifa with
      en := h.EN_ACAEN_MASK ||| h.EN_ACACPEN_MASK ||| h.EN_ACBEN_MASK ||| h.EN_ACBCPEN_MASK }
    (busy_wait (acifa_is_aca_ready h) srs fuel 0).bind (fun k =>
      (busy_wait (acifa_is_acb_ready h) srs fuel k).map (fun k2 => (a1, k2)))

/-- Source function `acifa_stop`: one store to `dis`. -/
def acifa_stop (h : Hdr) (acifa : avr32_acifa_t) (comp_sel : Nat) : avr32_acifa_t :=
  if comp_sel % 256 = h.ACIFA_COMP_SELA then
    { acifa with dis := h.DIS_ACADIS_MASK ||| h.DIS_ACACPDIS_MASK }
  else if comp_sel % 256 = h.ACIFA_COMP_SELB then
    { acifa with dis := h.DIS_ACBDIS_MASK ||| h.DIS_ACBCPDIS_MASK }
  else
    { acifa with
      dis := h.DIS_ACADIS_MASK ||| h.DIS_ACACPDIS_MASK ||| h.DIS_ACBDIS_MASK |||
        h.DIS_ACBCPDIS_MASK }

/-- Source function `acifa_start_window`: one store to `en`, then the busy-wait on the
window flag. -/
def acifa_start_window (h : Hdr) (fuel : Nat) (srs : Nat → Nat) (acifa : avr32_acifa_t) :
    Option (avr32_acifa_t × Nat) :=
  let a1 := { acifa with en := h.EN_WFEN_MASK }
  (busy_wait (acifa_is_wf_ready h) srs fuel 0).map (fun k => (a1, k))

/-- Source function `acifa_clear_flags`: one store to `scr`. -/
def acifa_clear_flags (acifa : avr32_acifa_t) (flag_mask : Nat) : avr32_acifa_t :=
  store_scr acifa (flag_mask % 2 ^ 32)

/-- The body shared by the three trigger functions: `acifa->CONFA.is = v` for selector
A, `acifa->CONFB.is = v` for selector B, nothing otherwise. -/
def set_is (h : Hdr) (acifa : avr32_acifa_t) (comp_sel v : Nat) : avr32_acifa_t :=
  if comp_sel % 256 = h.ACIFA_COMP_SELA then
    { acifa with confa := h.CONFA_IS.store acifa.confa v }
  else if comp_sel % 256 = h.ACIFA_COMP_SELB then
    { acifa with confb := h.CONFB_IS.store acifa.confb v }
  else
    acifa

/-- Source function `acifa_enable_interrupt_inp_higher`. -/
def acifa_enable_interrupt_inp_higher (h : Hdr) (acifa : avr32_acifa_t) (comp_sel : Nat) :
    avr32_acifa_t :=
  set_is h acifa comp_sel 0

/-- Source function `acifa_enable_interrupt_inp_lower`. -/
def acifa_enable_interrupt_inp_lower (h : Hdr) (acifa : avr32_acifa_t) (comp_sel : Nat) :
    avr32_acifa_t :=
  set_is h acifa comp_sel 1

/-- Source function `acifa_enable_interrupt_toggle`. -/
def acifa_enable_interrupt_toggle (h : Hdr) (acifa : avr32_acifa_t) (comp_sel : Nat) :
    avr32_acifa_t :=
  set_is h acifa comp_sel 2

/-- Source function `acifa_enable_interrupt`: one store to `ier`. -/
def acifa_enable_interrupt (acifa : avr32_acifa_t) (flag_mask : Nat) : avr32_acifa_t :=
  store_ier acifa (flag_mask % 2 ^ 32)

/-! ## Conditions on the header -/

/-- The two comparator selectors are distinct 8-bit values. -/
def Hdr.selOK (h : Hdr) : Prop :=
  h.ACIFA_COMP_SELA < 256 ∧ h.ACIFA_COMP_SELB < 256 ∧ h.ACIFA_COMP_SELA ≠ h.ACIFA_COMP_SELB

/-- In both configuration registers the two input-select fields lie inside the register
and do not overlap. -/
def Hdr.inselOK (h : Hdr) : Prop :=
  h.CONFA_INSELP.fits32 ∧ h.CONFA_INSELN.fits32 ∧ h.CONFA_INSELP.disjoint h.CONFA_INSELN ∧
  h.CONFB_INSELP.fits32 ∧ h.CONFB_INSELN.fits32 ∧ h.CONFB_INSELP.disjoint h.CONFB_INSELN

instance (h : Hdr) : Decidable h.selOK := by
  unfold Hdr.selOK; infer_instance

instance (h : Hdr) : Decidable h.inselOK := by
  unfold Hdr.inselOK; infer_instance

/-- A register block with every register non-zero, as a prior state. -/
def regs1 : avr32_acifa_t :=
  ⟨0xdeadbeef, 0x12345678, 0x5, 0x1234, 0x10003, 0x7, 0x33, 0x11, 0x71, 0x2, 0x4, 0x5⟩

/-- A status stream: ACA ready at read 2; ACB ready and window ready at read 4. -/
def srs0 : Nat → Nat := fun n => if n = 2 then 0x10 else if n = 4 then 0x60 else 0

/-- The block `r` is the block `a` with the IS field of `confa` set to `v`: the field
decodes to `v`, every bit of `confa` outside the field and every other register are
those of `a`. -/
def sets_is_confa (h : Hdr) (a r : avr32_acifa_t) (v : Nat) : Prop :=
  h.CONFA_IS.ext r.confa = v ∧
  (∀ i, h.CONFA_IS.mask.testBit i = false → r.confa.testBit i = a.confa.testBit i) ∧
  r = { a with confa := r.confa }

/-- The block `r` is the block `a` with the IS field of `confb` set to `v`: the field
decodes to `v`, every bit of `confb` outside the field and every other register are
those of `a`. -/
def sets_is_confb (h : Hdr) (a r : avr32_acifa_t) (v : Nat) : Prop :=
  h.CONFB_IS.ext r.confb = v ∧
  (∀ i, h.CONFB_IS.mask.testBit i = false → r.confb.testBit i = a.confb.testBit i) ∧
  r = { a with confb := r.confb }

/-- The IS fields of both configuration registers lie inside the register and are at
least two bits wide, so that they hold the trigger modes 0, 1 and 2. -/
def Hdr.isOK (h : Hdr) : Prop :=
  h.CONFA_IS.fits32 ∧ 2 ≤ h.CONFA_IS.size ∧ h.CONFB_IS.fits32 ∧ 2 ≤ h.CONFB_IS.size

instance (h : Hdr) : Decidable h.isOK := by
  unfold Hdr.isOK; infer_instance

/-- The zero block after hysteresis level 3, output enable and toggle trigger on channel
A, and hysteresis level 1 on channel B. -/
def regs2 : avr32_acifa_t :=
  acifa_configure_hysteresis hdr0
    (acifa_enable_interrupt_toggle hdr0
      (acifa_enable_output hdr0 (acifa_configure_hysteresis hdr0 regs0 1 3) 1) 1) 2 1

/-! ## Bit-level facts about fields -/

theorem Field.testBit_mask (f : Field) (i : Nat) :
    f.mask.testBit i = (decide (i < 32) && (decide (f.offset ≤ i) && decide (i - f.offset < f.size))) := by
  simp only [Field.mask, Nat.testBit_mod_two_pow, Nat.testBit_shiftLeft,
    Nat.testBit_two_pow_sub_one]

theorem Field.testBit_ins (f : Field) (v i : Nat) :
    (f.ins v).testBit i =
      (decide (i < 32) && (decide (f.offset ≤ i) && (decide (i - f.offset < f.size) &&
        v.testBit (i - f.offset)))) := by
  simp only [Field.ins, Nat.testBit_and, Field.testBit_mask, Nat.testBit_mod_two_pow,
    Nat.testBit_shiftLeft]
  by_cases h1 : i < 32 <;> by_cases h2 : f.offset ≤ i <;>
    by_cases h3 : i - f.offset < f.size <;> simp [h1, h2, h3]

/-- A value that fits a field is read back from the register that holds it next to a
value in a disjoint field. -/
theorem Field.ext_ins_or_left (f g : Field) (v w : Nat) (hf : f.fits32)
    (hd : f.disjoint g) (hv : v < 2 ^ f.size) : f.ext (f.ins v ||| g.ins w) = v := by
  apply Nat.eq_of_testBit_eq
  intro i
  unfold Field.fits32 at hf
  unfold Field.disjoint at hd
  simp only [Field.ext, Nat.testBit_shiftRight, Nat.testBit_and, Nat.testBit_or,
    Field.testBit_ins, Field.testBit_mask, Nat.add_sub_cancel_left]
  by_cases hi : i < f.size
  · have h1 : f.offset + i < 32 := by omega
    have h2 : ¬ (g.offset ≤ f.offset + i ∧ f.offset + i - g.offset < g.size) := by omega
    by_cases h3 : g.offset ≤ f.offset + i
    · have h4 : ¬ (f.offset + i - g.offset < g.size) := fun h => h2 ⟨h3, h⟩
      simp [hi, h1, h3, h4]
    · simp [hi, h1, h3]
  · have h5 : v.testBit i = false :=
      Nat.testBit_lt_two_pow (lt_of_lt_of_le hv (Nat.pow_le_pow_right (by decide) (by omega)))
    simp [hi, h5]

theorem Field.ext_ins_or_right (f g : Field) (v w : Nat) (hg : g.fits32)
    (hd : f.disjoint g) (hw : w < 2 ^ g.size) : g.ext (f.ins v ||| g.ins w) = w := by
  rw [Nat.lor_comm]
  exact Field.ext_ins_or_left g f w v hg (Or.symm hd) hw

/-! ## Normal Mode configuration -/

/-- C1: for selector A or B, inputs that fit their input-select fields, every 32-bit bus
frequency and every prior register state, after `acifa_configure` the INSELP and INSELN
fields of the selected configuration register decode to `input_p` and `input_n`, and `sut`
is `pb_hz / 100000` (floor division). -/
theorem acifa_configure_readback (h : Hdr) (acifa : avr32_acifa_t)
    (input_p input_n pb_hz : Nat) (hsel : h.selOK) (hl : h.inselOK)
    (hp : input_p < 256) (hn : input_n < 256) (hpb : pb_hz < 2 ^ 32) :
    (input_p < 2 ^ h.CONFA_INSELP.size → input_n < 2 ^ h.CONFA_INSELN.size →
      h.CONFA_INSELP.ext
          (acifa_configure h acifa h.ACIFA_COMP_SELA input_p input_n pb_hz).confa = input_p ∧
      h.CONFA_INSELN.ext
          (acifa_configure h acifa h.ACIFA_COMP_SELA input_p input_n pb_hz).confa = input_n ∧
      (acifa_configure h acifa h.ACIFA_COMP_SELA input_p input_n pb_hz).sut
        = pb_hz / 100000) ∧
    (input_p < 2 ^ h.CONFB_INSELP.size → input_n < 2 ^ h.CONFB_INSELN.size →
      h.CONFB_INSELP.ext
          (acifa_configure h acifa h.ACIFA_COMP_SELB input_p input_n pb_hz).confb = input_p ∧
      h.CONFB_INSELN.ext
          (acifa_configure h acifa h.ACIFA_COMP_SELB input_p input_n pb_hz).confb = input_n ∧
      (acifa_configure h acifa h.ACIFA_COMP_SELB input_p input_n pb_hz).sut
        = pb_hz / 100000) := by
  obtain ⟨hA, hB, hAB⟩ := hsel
  obtain ⟨a1, a2, a3, b1, b2, b3⟩ := hl
  have eA : h.ACIFA_COMP_SELA % 256 = h.ACIFA_COMP_SELA := Nat.mod_eq_of_lt hA
  have eB : ¬ h.ACIFA_COMP_SELB % 256 = h.ACIFA_COMP_SELA := by
    rw [Nat.mod_eq_of_lt hB]; exact fun e => hAB e.symm
  refine ⟨fun fp fn => ?_, fun fp fn => ?_⟩
  · simp only [acifa_configure, eA, if_true, Nat.mod_eq_of_lt hp, Nat.mod_eq_of_lt hn,
      Nat.mod_eq_of_lt hpb]
    exact ⟨Field.ext_ins_or_left _ _ _ _ a1 a3 fp, Field.ext_ins_or_right _ _ _ _ a2 a3 fn, trivial⟩
  · simp only [acifa_configure, eB, if_false, Nat.mod_eq_of_lt hp, Nat.mod_eq_of_lt hn,
      Nat.mod_eq_of_lt hpb]
    exact ⟨Field.ext_ins_or_left _ _ _ _ b1 b3 fp, Field.ext_ins_or_right _ _ _ _ b2 b3 fn, trivial⟩

/-- C1 at a concrete input: header `hdr0`, prior state `regs1`, inputs 5 and 9, a bus
frequency of 66 MHz. -/
theorem acifa_configure_readback_witness :
    hdr0.selOK ∧ hdr0.inselOK ∧
    (hdr0.CONFA_INSELP.ext (acifa_configure hdr0 regs1 1 5 9 66000000).confa = 5 ∧
      hdr0.CONFA_INSELN.ext (acifa_configure hdr0 regs1 1 5 9 66000000).confa = 9 ∧
      (acifa_configure hdr0 regs1 1 5 9 66000000).sut = 660) ∧
    (hdr0.CONFB_INSELP.ext (acifa_configure hdr0 regs1 2 5 9 66000000).confb = 5 ∧
      hdr0.CONFB_INSELN.ext (acifa_configure hdr0 regs1 2 5 9 66000000).confb = 9 ∧
      (acifa_configure hdr0 regs1 2 5 9 66000000).sut = 660) :=
  have t := acifa_configure_readback hdr0 regs1 5 9 66000000 (by decide) (by decide)
    (by decide) (by decide) (by decide)
  ⟨by decide, by decide, t.1 (by decide) (by decide), t.2 (by decide) (by decide)⟩

/-! ## The busy-wait loop -/

/-- With enough fuel the loop exits right after the first read, from `k` on, that finds
the flag set. -/
theorem busy_wait_first (ready : Nat → Bool) (srs : Nat → Nat) :
    ∀ (fuel k n : Nat), k ≤ n → ready (srs n) = true →
      (∀ m, k ≤ m → m < n → ready (srs m) = false) → n < k + fuel →
      busy_wait ready srs fuel k = some (n + 1) := by
  intro fuel
  induction fuel with
  | zero => intro k n hk _ _ hlt; omega
  | succ fuel ih =>
    intro k n hk hr hfirst hlt
    rcases Nat.eq_or_lt_of_le hk with e | hkn
    · subst e
      simp [busy_wait, hr]
    · have hk0 : ready (srs k) = false := hfirst k le_rfl hkn
      simp only [busy_wait, hk0, Bool.false_eq_true, if_false]
      exact ih (k + 1) n hkn hr (fun m h1 h2 => hfirst m (by omega) h2) (by omega)

/-- When the loop exits, it does so right after the first read that finds the flag set. -/
theorem busy_wait_some (ready : Nat → Bool) (srs : Nat → Nat) :
    ∀ (fuel k r : Nat), busy_wait ready srs fuel k = some r →
      ∃ n, r = n + 1 ∧ k ≤ n ∧ n < k + fuel ∧ ready (srs n) = true ∧
        ∀ m, k ≤ m → m < n → ready (srs m) = false := by
  intro fuel
  induction fuel with
  | zero => intro k r hr; simp [busy_wait] at hr
  | succ fuel ih =>
    intro k r hr
    by_cases hk : ready (srs k) = true
    · simp only [busy_wait, hk, if_true, Option.some.injEq] at hr
      exact ⟨k, hr.symm, le_rfl, by omega, hk, fun m h1 h2 => by omega⟩
    · simp only [busy_wait, hk, if_false] at hr
      obtain ⟨n, e, h1, h2, h3, h4⟩ := ih (k + 1) r hr
      refine ⟨n, e, by omega, by omega, h3, fun m hm1 hm2 => ?_⟩
      rcases Nat.eq_or_lt_of_le hm1 with e2 | h5
      · subst e2; simpa using hk
      · exact h4 m h5 hm2

/-- Without a read that finds the flag set the loop exits for no amount of fuel. -/
theorem busy_wait_none (ready : Nat → Bool) (srs : Nat → Nat) (fuel k : Nat)
    (hno : ∀ n, k ≤ n → ready (srs n) = false) : busy_wait ready srs fuel k = none := by
  cases hr : busy_wait ready srs fuel k with
  | none => rfl
  | some r =>
    obtain ⟨n, _, h1, _, h3, _⟩ := busy_wait_some ready srs fuel k r hr
    rw [hno n h1] at h3
    exact absurd h3 (by decide)

/-- A read, from `k` on, that finds the flag set gives a first such read. -/
theorem first_ready (ready : Nat → Bool) (srs : Nat → Nat) (k : Nat)
    (hex : ∃ n, k ≤ n ∧ ready (srs n) = true) :
    ∃ n, k ≤ n ∧ ready (srs n) = true ∧ ∀ m, k ≤ m → m < n → ready (srs m) = false := by
  classical
  refine ⟨Nat.find hex, (Nat.find_spec hex).1, (Nat.find_spec hex).2, fun m h1 h2 => ?_⟩
  have := Nat.find_min hex h2
  cases hm : ready (srs m) with
  | false => rfl
  | true => exact absurd ⟨h1, hm⟩ this

/-- The loop exits for some amount of fuel exactly when some read from `k` on finds the
flag set. -/
theorem busy_wait_isSome_iff (ready : Nat → Bool) (srs : Nat → Nat) (k : Nat) :
    (∃ fuel, (busy_wait ready srs fuel k).isSome = true) ↔ ∃ n, k ≤ n ∧ ready (srs n) = true := by
  constructor
  · rintro ⟨fuel, hs⟩
    obtain ⟨r, hr⟩ := Option.isSome_iff_exists.mp hs
    obtain ⟨n, _, h1, _, h3, _⟩ := busy_wait_some ready srs fuel k r hr
    exact ⟨n, h1, h3⟩
  · intro hex
    obtain ⟨n, h1, h2, h3⟩ := first_ready ready srs k hex
    exact ⟨n + 1, by rw [busy_wait_first ready srs (n + 1) k n h1 h2 h3 (by omega)]; rfl⟩

/-- A call made of one store followed by one busy-wait loop. -/
theorem map_busy_wait_spec {α : Type} (ready : Nat → Bool) (srs : Nat → Nat) (a1 : α) :
    ((∃ fuel, ((busy_wait ready srs fuel 0).map (fun k => (a1, k))).isSome = true) ↔
        ∃ n, ready (srs n) = true) ∧
      ∀ n, ready (srs n) = true → (∀ m, m < n → ready (srs m) = false) →
        ∀ fuel, n < fuel →
          (busy_wait ready srs fuel 0).map (fun k => (a1, k)) = some (a1, n + 1) := by
  constructor
  · have := busy_wait_isSome_iff ready srs 0
    simp only [Nat.zero_le, true_and] at this
    simpa using this
  · intro n hn hfirst fuel hlt
    rw [busy_wait_first ready srs fuel 0 n (Nat.zero_le n) hn (fun m _ h2 => hfirst m h2)
      (by omega)]
    rfl

/-- A call made of one store followed by two busy-wait loops in sequence. -/
theorem bind_busy_wait_spec {α : Type} (rA rB : Nat → Bool) (srs : Nat → Nat) (a1 : α) :
    ((∃ fuel, ((busy_wait rA srs fuel 0).bind (fun k =>
          (busy_wait rB srs fuel k).map (fun k2 => (a1, k2)))).isSome = true) ↔
        ∃ i j, i < j ∧ rA (srs i) = true ∧ rB (srs j) = true) ∧
      ∀ i j, rA (srs i) = true → (∀ m, m < i → rA (srs m) = false) → i < j →
        rB (srs j) = true → (∀ m, i < m → m < j → rB (srs m) = false) →
        ∀ fuel, j < fuel →
          (busy_wait rA srs fuel 0).bind (fun k =>
            (busy_wait rB srs fuel k).map (fun k2 => (a1, k2))) = some (a1, j + 1) := by
  have exact : ∀ i j, rA (srs i) = true → (∀ m, m < i → rA (srs m) = false) → i < j →
      rB (srs j) = true → (∀ m, i < m → m < j → rB (srs m) = false) →
      ∀ fuel, j < fuel →
        (busy_wait rA srs fuel 0).bind (fun k =>
          (busy_wait rB srs fuel k).map (fun k2 => (a1, k2))) = some (a1, j + 1) := by
    intro i j hi hfi hij hj hfj fuel hlt
    rw [busy_wait_first rA srs fuel 0 i (Nat.zero_le i) hi (fun m _ h2 => hfi m h2) (by omega)]
    simp only [Option.some_bind]
    rw [busy_wait_first rB srs fuel (i + 1) j hij hj (fun m h1 h2 => hfj m h1 h2) (by omega)]
    rfl
  refine ⟨⟨?_, ?_⟩, exact⟩
  · rintro ⟨fuel, hs⟩
    obtain ⟨r, hr⟩ := Option.isSome_iff_exists.mp hs
    cases hA : busy_wait rA srs fuel 0 with
    | none => simp [hA] at hr
    | some k =>
      simp only [hA, Option.some_bind] at hr
      cases hB : busy_wait rB srs fuel k with
      | none => simp [hB] at hr
      | some k2 =>
        obtain ⟨i, e1, _, _, hi, _⟩ := busy_wait_some rA srs fuel 0 k hA
        obtain ⟨j, _, h1, _, hj, _⟩ := busy_wait_some rB srs fuel k k2 hB
        exact ⟨i, j, by omega, hi, hj⟩
  · rintro ⟨i, j, hij, hi, hj⟩
    obtain ⟨i0, _, hi0, hfi0⟩ := first_ready rA srs 0 ⟨i, Nat.zero_le i, hi⟩
    have hle : i0 ≤ i := by
      by_contra hc
      have := hfi0 i (Nat.zero_le i) (by omega)
      rw [hi] at this
      exact absurd this (by decide)
    obtain ⟨j0, hj0k, hj0, hfj0⟩ := first_ready rB srs (i0 + 1) ⟨j, by omega, hj⟩
    refine ⟨j0 + 1, ?_⟩
    rw [exact i0 j0 hi0 (fun m h2 => hfi0 m (Nat.zero_le m) h2) hj0k hj0
      (fun m h1 h2 => hfj0 m h1 h2) (j0 + 1) (by omega)]
    rfl

/-! ## Start -/

/-- C2: with `srs n` the value the `n`-th read of the status register returns,
`acifa_start` for selector A (resp. B) stores the enable mask and returns exactly when
some read finds the ACA (resp. ACB) ready flag set, right after the first such read;
for any other selector (Both) it returns exactly when a read finds ACA ready and a
strictly later read finds ACB ready; `acifa_start_window` returns exactly when some read
finds the window-ready flag set.  When no such read exists no amount of fuel makes the
call return. -/
theorem acifa_start_returns_iff_ready (h : Hdr) (srs : Nat → Nat) (acifa : avr32_acifa_t)
    (hsel : h.selOK) :
    (((∃ fuel, (acifa_start h fuel srs acifa h.ACIFA_COMP_SELA).isSome = true) ↔
        ∃ n, acifa_is_aca_ready h (srs n) = true) ∧
      ∀ n, acifa_is_aca_ready h (srs n) = true →
        (∀ m, m < n → acifa_is_aca_ready h (srs m) = false) →
        ∀ fuel, n < fuel →
          acifa_start h fuel srs acifa h.ACIFA_COMP_SELA =
            some ({ acifa with en := h.EN_ACAEN_MASK ||| h.EN_ACACPEN_MASK }, n + 1)) ∧
    (((∃ fuel, (acifa_start h fuel srs acifa h.ACIFA_COMP_SELB).isSome = true) ↔
        ∃ n, acifa_is_acb_ready h (srs n) = true) ∧
      ∀ n, acifa_is_acb_ready h (srs n) = true →
        (∀ m, m < n → acifa_is_acb_ready h (srs m) = false) →
        ∀ fuel, n < fuel →
          acifa_start h fuel srs acifa h.ACIFA_COMP_SELB =
            some ({ acifa with en := h.EN_ACBEN_MASK ||| h.EN_ACBCPEN_MASK }, n + 1)) ∧
    (∀ comp_sel, comp_sel % 256 ≠ h.ACIFA_COMP_SELA → comp_sel % 256 ≠ h.ACIFA_COMP_SELB →
      ((∃ fuel, (acifa_start h fuel srs acifa comp_sel).isSome = true) ↔
        ∃ i j, i < j ∧ acifa_is_aca_ready h (srs i) = true ∧
          acifa_is_acb_ready h (srs j) = true) ∧
      ∀ i j, acifa_is_aca_ready h (srs i) = true →
        (∀ m, m < i → acifa_is_aca_ready h (srs m) = false) → i < j →
        acifa_is_acb_ready h (srs j) = true →
        (∀ m, i < m → m < j → acifa_is_acb_ready h (srs m) = false) →
        ∀ fuel, j < fuel →
          acifa_start h fuel srs acifa comp_sel =
            some ({ acifa with
              en := h.EN_ACAEN_MASK ||| h.EN_ACACPEN_MASK ||| h.EN_ACBEN_MASK |||
                h.EN_ACBCPEN_MASK }, j + 1)) ∧
    (((∃ fuel, (acifa_start_window h fuel srs acifa).isSome = true) ↔
        ∃ n, acifa_is_wf_ready h (srs n) = true) ∧
      ∀ n, acifa_is_wf_ready h (srs n) = true →
        (∀ m, m < n → acifa_is_wf_ready h (srs m) = false) →
        ∀ fuel, n < fuel →
          acifa_start_window h fuel srs acifa =
            some ({ acifa with en := h.EN_WFEN_MASK }, n + 1)) := by
  obtain ⟨hA, hB, hAB⟩ := hsel
  have eA : h.ACIFA_COMP_SELA % 256 = h.ACIFA_COMP_SELA := Nat.mod_eq_of_lt hA
  have eB : h.ACIFA_COMP_SELB % 256 = h.ACIFA_COMP_SELB := Nat.mod_eq_of_lt hB
  have eBA : ¬ h.ACIFA_COMP_SELB = h.ACIFA_COMP_SELA := fun e => hAB e.symm
  refine ⟨?_, ?_, ?_, ?_⟩
  · simp only [acifa_start, eA, if_true]
    exact map_busy_wait_spec _ srs _
  · simp only [acifa_start, eB, eBA, if_true, if_false]
    exact map_busy_wait_spec _ srs _
  · intro comp_sel h1 h2
    simp only [acifa_start, h1, h2, if_false]
    exact bind_busy_wait_spec _ _ srs _
  · simp only [acifa_start_window]
    exact map_busy_wait_spec _ srs _

/-- C2 at a concrete input: header `hdr0`, status stream `srs0`, prior state `regs1`,
fuel 10.  Selector 1 returns after 3 reads, selectors 2 and 3 and the window start after
5 reads. -/
theorem acifa_start_returns_iff_ready_witness :
    hdr0.selOK ∧
    acifa_start hdr0 10 srs0 regs1 1 = some ({ regs1 with en := 0x11 }, 3) ∧
    acifa_start hdr0 10 srs0 regs1 2 = some ({ regs1 with en := 0x22 }, 5) ∧
    acifa_start hdr0 10 srs0 regs1 3 = some ({ regs1 with en := 0x33 }, 5) ∧
    acifa_start_window hdr0 10 srs0 regs1 = some ({ regs1 with en := 0x10000 }, 5) :=
  have t := acifa_start_returns_iff_ready hdr0 srs0 regs1 (by decide)
  ⟨by decide,
   t.1.2 2 (by decide) (by decide) 10 (by decide),
   t.2.1.2 4 (by decide) (by decide) 10 (by decide),
   (t.2.2.1 3 (by decide) (by decide)).2 2 4 (by decide) (by decide) (by decide) (by decide)
     (by intro m h1 h2; interval_cases m; decide) 10 (by decide),
   t.2.2.2.2 4 (by decide) (by decide) 10 (by decide)⟩

/-! ## Flags and interrupt enable -/

/-- C3: for every status state and every 32-bit mask, after `acifa_clear_flags(mask)` a
status bit is set if and only if it was set before and is not named in the mask.  The
call stores the mask in `scr` and changes no register besides `scr` and `sr`. -/
theorem acifa_clear_flags_clears_mask (acifa : avr32_acifa_t) (flag_mask : Nat)
    (hm : flag_mask < 2 ^ 32) :
    (∀ i, (acifa_clear_flags acifa flag_mask).sr.testBit i = true ↔
      (acifa.sr.testBit i = true ∧ flag_mask.testBit i = false)) ∧
    (acifa_clear_flags acifa flag_mask).scr = flag_mask ∧
    acifa_clear_flags acifa flag_mask =
      { acifa with scr := flag_mask, sr := (acifa_clear_flags acifa flag_mask).sr } := by
  unfold acifa_clear_flags store_scr
  rw [Nat.mod_eq_of_lt hm]
  refine ⟨fun i => ?_, rfl, rfl⟩
  simp only [Nat.testBit_xor, Nat.testBit_and]
  cases acifa.sr.testBit i <;> cases flag_mask.testBit i <;> simp

/-- C3 at a concrete input: status `0x71`, mask `0x11`: the flags of bits 0 and 4 are
cleared, those of bits 5 and 6 stay set. -/
theorem acifa_clear_flags_clears_mask_witness :
    (∀ i, (acifa_clear_flags regs1 0x11).sr.testBit i = true ↔
      (regs1.sr.testBit i = true ∧ (0x11 : Nat).testBit i = false)) ∧
    (acifa_clear_flags regs1 0x11).sr = 0x60 :=
  ⟨(acifa_clear_flags_clears_mask regs1 0x11 (by decide)).1, by decide⟩

/-- C4: after `acifa_enable_interrupt(m1)` followed by `acifa_enable_interrupt(m2)` every
source named in `m1` or in `m2` is enabled, and neither call disables a source that was
enabled before it.  Each call stores its mask in `ier` and changes no register besides
`ier` and `imr`. -/
theorem acifa_enable_interrupt_accumulates (acifa : avr32_acifa_t) (m1 m2 : Nat)
    (h1 : m1 < 2 ^ 32) (h2 : m2 < 2 ^ 32) :
    (∀ i, m1.testBit i = true ∨ m2.testBit i = true →
      (acifa_enable_interrupt (acifa_enable_interrupt acifa m1) m2).imr.testBit i = true) ∧
    (∀ i, acifa.imr.testBit i = true →
      (acifa_enable_interrupt acifa m1).imr.testBit i = true) ∧
    (∀ i, (acifa_enable_interrupt acifa m1).imr.testBit i = true →
      (acifa_enable_interrupt (acifa_enable_interrupt acifa m1) m2).imr.testBit i = true) ∧
    (acifa_enable_interrupt acifa m1).ier = m1 ∧
    acifa_enable_interrupt acifa m1 =
      { acifa with ier := m1, imr := (acifa_enable_interrupt acifa m1).imr } := by
  unfold acifa_enable_interrupt store_ier
  rw [Nat.mod_eq_of_lt h1, Nat.mod_eq_of_lt h2]
  refine ⟨fun i hi => ?_, fun i hi => ?_, fun i hi => ?_, rfl, rfl⟩
  · simp only [Nat.testBit_or]
    rcases hi with hi | hi <;> simp [hi]
  · simp only [Nat.testBit_or, hi, Bool.true_or]
  · simp only [Nat.testBit_or] at hi ⊢
    simp [hi]

/-- C4 at a concrete input: prior mask `0x5` (state `regs1`), then the masks `0x1` and
`0x2`: the interrupt mask ends as `0x7`. -/
theorem acifa_enable_interrupt_accumulates_witness :
    (∀ i, (0x1 : Nat).testBit i = true ∨ (0x2 : Nat).testBit i = true →
      (acifa_enable_interrupt (acifa_enable_interrupt regs1 0x1) 0x2).imr.testBit i = true) ∧
    (acifa_enable_interrupt (acifa_enable_interrupt regs1 0x1) 0x2).imr = 0x7 ∧
    (acifa_enable_interrupt (acifa_enable_interrupt regs0 0x1) 0x2).imr = 0x3 :=
  ⟨(acifa_enable_interrupt_accumulates regs1 0x1 0x2 (by decide) (by decide)).1,
    by decide, by decide⟩

/-! ## Window Mode configuration -/

/-- In 32-bit arithmetic `Field.ins` is the C expression `(v << OFFSET) & MASK`: the
32-bit mask makes the truncation of the shift invisible. -/
theorem Field.ins_eq (f : Field) (v : Nat) : f.ins v = (v <<< f.offset) &&& f.mask := by
  apply Nat.eq_of_testBit_eq
  intro i
  simp only [Field.testBit_ins, Nat.testBit_and, Field.testBit_mask, Nat.testBit_shiftLeft]
  by_cases h1 : i < 32 <;> by_cases h2 : f.offset ≤ i <;>
    by_cases h3 : i - f.offset < f.size <;> simp [h1, h2, h3]

/-- C5: two calls of `acifa_configure_window` with common inputs `c1` and `c2` leave
`wconf` equal to its prior value or-ed with both window-select fields,
`(c << WINSEL_OFFSET) & WINSEL_MASK`; every bit selected by `c1` is still set. -/
theorem acifa_configure_window_accumulates (h : Hdr) (acifa : avr32_acifa_t)
    (p1 n1 c1 pb1 p2 n2 c2 pb2 : Nat) (hc1 : c1 < 256) (hc2 : c2 < 256) :
    (acifa_configure_window h (acifa_configure_window h acifa p1 n1 c1 pb1) p2 n2 c2 pb2).wconf
      = acifa.wconf ||| ((c1 <<< h.WCONF_WINSEL.offset) &&& h.WCONF_WINSEL.mask)
          ||| ((c2 <<< h.WCONF_WINSEL.offset) &&& h.WCONF_WINSEL.mask) ∧
    ∀ i, ((c1 <<< h.WCONF_WINSEL.offset) &&& h.WCONF_WINSEL.mask).testBit i = true →
      (acifa_configure_window h (acifa_configure_window h acifa p1 n1 c1 pb1)
        p2 n2 c2 pb2).wconf.testBit i = true := by
  have e : (acifa_configure_window h (acifa_configure_window h acifa p1 n1 c1 pb1)
        p2 n2 c2 pb2).wconf
      = acifa.wconf ||| ((c1 <<< h.WCONF_WINSEL.offset) &&& h.WCONF_WINSEL.mask)
          ||| ((c2 <<< h.WCONF_WINSEL.offset) &&& h.WCONF_WINSEL.mask) := by
    simp only [acifa_configure_window, Nat.mod_eq_of_lt hc1, Nat.mod_eq_of_lt hc2,
      Field.ins_eq]
  refine ⟨e, fun i hi => ?_⟩
  rw [e]
  simp only [Nat.testBit_or, hi, Bool.or_true, Bool.true_or]

/-- C5 at a concrete input: header `hdr0`, prior `wconf = 0x5` (state `regs1`), common
inputs 1 then 2: `wconf` ends as `0x7`, not as the field of 2 alone. -/
theorem acifa_configure_window_accumulates_witness :
    (acifa_configure_window hdr0 (acifa_configure_window hdr0 regs1 3 4 1 66000000)
        3 4 2 66000000).wconf = 0x5 ||| 0x1 ||| 0x2 ∧
    (acifa_configure_window hdr0 (acifa_configure_window hdr0 regs0 3 4 1 66000000)
        3 4 2 66000000).wconf = 0x3 :=
  ⟨(acifa_configure_window_accumulates hdr0 regs1 3 4 1 66000000 3 4 2 66000000
      (by decide) (by decide)).1,
   (acifa_configure_window_accumulates hdr0 regs0 3 4 1 66000000 3 4 2 66000000
      (by decide) (by decide)).1⟩

/-- C8: `acifa_configure_window` overwrites both threshold registers: whatever the prior
state, afterwards `confa` is exactly `(input_p << INSELP_OFFSET) & INSELP_MASK`, `confb`
is exactly `(input_n << INSELN_OFFSET) & INSELN_MASK`, and `sut` is `pb_hz / 100000`, the
value `acifa_configure` writes. -/
theorem acifa_configure_window_overwrites (h : Hdr) (acifa other : avr32_acifa_t)
    (input_p input_n common_input pb_hz comp_sel : Nat)
    (hp : input_p < 256) (hn : input_n < 256) (hpb : pb_hz < 2 ^ 32) :
    (acifa_configure_window h acifa input_p input_n common_input pb_hz).confa
      = (input_p <<< h.CONFA_INSELP.offset) &&& h.CONFA_INSELP.mask ∧
    (acifa_configure_window h acifa input_p input_n common_input pb_hz).confb
      = (input_n <<< h.CONFB_INSELN.offset) &&& h.CONFB_INSELN.mask ∧
    (acifa_configure_window h acifa input_p input_n common_input pb_hz).sut
      = pb_hz / 100000 ∧
    (acifa_configure_window h acifa input_p input_n common_input pb_hz).sut
      = (acifa_configure h other comp_sel input_p input_n pb_hz).sut := by
  simp only [acifa_configure_window, acifa_configure, Nat.mod_eq_of_lt hp,
    Nat.mod_eq_of_lt hn, Nat.mod_eq_of_lt hpb, Field.ins_eq]
  exact ⟨trivial, trivial, trivial, trivial⟩

/-- C8 at a concrete input: header `hdr0`, prior state `regs1` with `confa = 0xdeadbeef`
and `confb = 0x12345678`, inputs 5 and 9, 66 MHz. -/
theorem acifa_configure_window_overwrites_witness :
    (acifa_configure_window hdr0 regs1 5 9 1 66000000).confa = 0x500 ∧
    (acifa_configure_window hdr0 regs1 5 9 1 66000000).confb = 0x90000 ∧
    (acifa_configure_window hdr0 regs1 5 9 1 66000000).sut = 660 ∧
    (acifa_configure_window hdr0 regs1 5 9 1 66000000).sut
      = (acifa_configure hdr0 regs0 2 5 9 66000000).sut :=
  acifa_configure_window_overwrites hdr0 regs1 regs0 5 9 1 66000000 2
    (by decide) (by decide) (by decide)

/-! ## Startup time -/

/-- C6, as amended: the startup value `sut = pb_hz / 100000` written by `acifa_configure`
and `acifa_configure_window` satisfies `sut * 100000 ≤ pb_hz < (sut + 1) * 100000`:
counting `sut` bus-clock periods lasts at most 10 microseconds and misses 10
microseconds by less than one period; it is exactly 10 microseconds precisely when
`pb_hz` is a multiple of 100000. -/
theorem startup_time_at_most_10us (h : Hdr) (acifa : avr32_acifa_t)
    (comp_sel input_p input_n common_input pb_hz : Nat) (hpb : pb_hz < 2 ^ 32) :
    (acifa_configure h acifa comp_sel input_p input_n pb_hz).sut * 100000 ≤ pb_hz ∧
    pb_hz < ((acifa_configure h acifa comp_sel input_p input_n pb_hz).sut + 1) * 100000 ∧
    ((acifa_configure h acifa comp_sel input_p input_n pb_hz).sut * 100000 = pb_hz ↔
      100000 ∣ pb_hz) ∧
    (acifa_configure_window h acifa input_p input_n common_input pb_hz).sut
      = (acifa_configure h acifa comp_sel input_p input_n pb_hz).sut := by
  have e1 : (acifa_configure h acifa comp_sel input_p input_n pb_hz).sut = pb_hz / 100000 := by
    simp only [acifa_configure, Nat.mod_eq_of_lt hpb]
  have e2 : (acifa_configure_window h acifa input_p input_n common_input pb_hz).sut
      = pb_hz / 100000 := by
    simp only [acifa_configure_window, Nat.mod_eq_of_lt hpb]
  rw [e1, e2]
  refine ⟨Nat.div_mul_le_self pb_hz 100000, ?_, ⟨fun e => ?_, fun d => ?_⟩, rfl⟩
  · have := Nat.div_add_mod pb_hz 100000
    have := Nat.mod_lt pb_hz (show 100000 > 0 by decide)
    omega
  · exact ⟨pb_hz / 100000, by omega⟩
  · exact Nat.div_mul_cancel d

/-- C6, as amended, at 150 kHz, where `sut` is 1: one bus period is counted, while 10
microseconds are one and a half periods. -/
theorem startup_time_at_most_10us_witness :
    (acifa_configure hdr0 regs0 1 0 0 150000).sut * 100000 ≤ 150000 ∧
    150000 < ((acifa_configure hdr0 regs0 1 0 0 150000).sut + 1) * 100000 ∧
    ((acifa_configure hdr0 regs0 1 0 0 150000).sut * 100000 = 150000 ↔ 100000 ∣ 150000) ∧
    (acifa_configure_window hdr0 regs0 0 0 0 150000).sut
      = (acifa_configure hdr0 regs0 1 0 0 150000).sut :=
  startup_time_at_most_10us hdr0 regs0 1 0 0 0 150000 (by decide)

/-- C6 fails as stated: at a bus frequency of 150 kHz both functions write `sut = 1`, and
`1 * 100000 ≥ 150000` is false: one bus period lasts 6.67 microseconds, less than 10.  At
32768 Hz they write `sut = 0`. -/
theorem startup_time_below_10us :
    0 < 150000 ∧
    ¬ ((acifa_configure hdr0 regs0 1 0 0 150000).sut * 100000 ≥ 150000) ∧
    ¬ ((acifa_configure_window hdr0 regs0 0 0 0 150000).sut * 100000 ≥ 150000) ∧
    (acifa_configure hdr0 regs0 1 0 0 32768).sut = 0 := by
  decide

/-! ## Stop -/

/-- C7: `acifa_stop` is idempotent for every selector: a second call leaves the register
block as the first call left it.  The call is a single store to `dis`; it takes no status
stream and no fuel, and leaves `sr` and `en` as they were. -/
theorem acifa_stop_idempotent (h : Hdr) (acifa : avr32_acifa_t) (comp_sel : Nat) :
    acifa_stop h (acifa_stop h acifa comp_sel) comp_sel = acifa_stop h acifa comp_sel ∧
    acifa_stop h acifa comp_sel = { acifa with dis := (acifa_stop h acifa comp_sel).dis } := by
  refine ⟨?_, ?_⟩
  · unfold acifa_stop
    split
    · rfl
    · split <;> rfl
  · unfold acifa_stop
    split
    · rfl
    · split <;> rfl

/-! ## Hysteresis and VCC scale -/

/-- Or-ing a value into a register keeps every bit that was set. -/
theorem testBit_or_left_of (r x i : Nat) (hr : r.testBit i = true) :
    (r ||| x).testBit i = true := by
  simp [Nat.testBit_or, hr]

/-- A mask or-ed into a register is fully set in the result. -/
theorem or_or_and_self (r x e : Nat) : (r ||| (x ||| e)) &&& e = e := by
  apply Nat.eq_of_testBit_eq
  intro i
  simp only [Nat.testBit_and, Nat.testBit_or]
  cases e.testBit i <;> simp

/-- C9: `acifa_configure_hysteresis` and `acifa_configure_vccscale` or the masked,
shifted argument (for VCC scale together with the enable mask) into the register of the
targeted channel (A for the selector `SELA`, B otherwise) and change nothing else: every
bit set before is still set, the VCC-scale enable bits are set afterwards, and the
register of the other channel is unchanged. -/
theorem rmw_accumulate (h : Hdr) (acifa : avr32_acifa_t) (sel arg : Nat) (ha : arg < 256) :
    (sel % 256 = h.ACIFA_COMP_SELA →
      acifa_configure_hysteresis h acifa sel arg =
        { acifa with
          confa := acifa.confa ||| ((arg <<< h.CONFA_HS.offset) &&& h.CONFA_HS.mask) } ∧
      (acifa_configure_hysteresis h acifa sel arg).confb = acifa.confb ∧
      ∀ i, acifa.confa.testBit i = true →
        (acifa_configure_hysteresis h acifa sel arg).confa.testBit i = true) ∧
    (sel % 256 ≠ h.ACIFA_COMP_SELA →
      acifa_configure_hysteresis h acifa sel arg =
        { acifa with
          confb := acifa.confb ||| ((arg <<< h.CONFB_HS.offset) &&& h.CONFB_HS.mask) } ∧
      (acifa_configure_hysteresis h acifa sel arg).confa = acifa.confa ∧
      ∀ i, acifa.confb.testBit i = true →
        (acifa_configure_hysteresis h acifa sel arg).confb.testBit i = true) ∧
    (sel % 256 = h.ACIFA_VCCSCALE_SELA →
      acifa_configure_vccscale h acifa sel arg =
        { acifa with
          scfa := acifa.scfa ||| (((arg <<< h.SCFA_SCALEFACTOR.offset) &&&
            h.SCFA_SCALEFACTOR.mask) ||| h.SCFA_EN_MASK) } ∧
      (acifa_configure_vccscale h acifa sel arg).scfb = acifa.scfb ∧
      (acifa_configure_vccscale h acifa sel arg).scfa &&& h.SCFA_EN_MASK = h.SCFA_EN_MASK ∧
      ∀ i, acifa.scfa.testBit i = true →
        (acifa_configure_vccscale h acifa sel arg).scfa.testBit i = true) ∧
    (sel % 256 ≠ h.ACIFA_VCCSCALE_SELA →
      acifa_configure_vccscale h acifa sel arg =
        { acifa with
          scfb := acifa.scfb ||| (((arg <<< h.SCFB_SCALEFACTOR.offset) &&&
            h.SCFB_SCALEFACTOR.mask) ||| h.SCFB_EN_MASK) } ∧
      (acifa_configure_vccscale h acifa sel arg).scfa = acifa.scfa ∧
      (acifa_configure_vccscale h acifa sel arg).scfb &&& h.SCFB_EN_MASK = h.SCFB_EN_MASK ∧
      ∀ i, acifa.scfb.testBit i = true →
        (acifa_configure_vccscale h acifa sel arg).scfb.testBit i = true) := by
  have e := Nat.mod_eq_of_lt ha
  refine ⟨fun hs => ?_, fun hs => ?_, fun hs => ?_, fun hs => ?_⟩
  · simp only [acifa_configure_hysteresis, hs, if_true, e, Field.ins_eq]
    exact ⟨trivial, trivial, fun i hi => testBit_or_left_of _ _ i hi⟩
  · simp only [acifa_configure_hysteresis, hs, if_false, e, Field.ins_eq]
    exact ⟨trivial, trivial, fun i hi => testBit_or_left_of _ _ i hi⟩
  · simp only [acifa_configure_vccscale, hs, if_true, e, Field.ins_eq]
    exact ⟨trivial, trivial, or_or_and_self _ _ _, fun i hi => testBit_or_left_of _ _ i hi⟩
  · simp only [acifa_configure_vccscale, hs, if_false, e, Field.ins_eq]
    exact ⟨trivial, trivial, or_or_and_self _ _ _, fun i hi => testBit_or_left_of _ _ i hi⟩

/-- C9 at a concrete input: header `hdr0`, prior state `regs1`, argument 2; selector 1
targets channel A, selector 2 channel B. -/
theorem rmw_accumulate_witness :
    (acifa_configure_hysteresis hdr0 regs1 1 2 = { regs1 with confa := 0xdeadbeef ||| 0x2000000 } ∧
      (acifa_configure_hysteresis hdr0 regs1 1 2).confb = 0x12345678) ∧
    (acifa_configure_hysteresis hdr0 regs1 2 2 = { regs1 with confb := 0x12345678 ||| 0x2000000 } ∧
      (acifa_configure_hysteresis hdr0 regs1 2 2).confa = 0xdeadbeef) ∧
    (acifa_configure_vccscale hdr0 regs1 1 2 = { regs1 with scfa := 0x10003 ||| (0x2 ||| 0x10000) } ∧
      (acifa_configure_vccscale hdr0 regs1 1 2).scfa &&& 0x10000 = 0x10000) ∧
    (acifa_configure_vccscale hdr0 regs1 2 2 = { regs1 with scfb := 0x7 ||| (0x2 ||| 0x10000) } ∧
      (acifa_configure_vccscale hdr0 regs1 2 2).scfb &&& 0x10000 = 0x10000) :=
  have tA := rmw_accumulate hdr0 regs1 1 2 (by decide)
  have tB := rmw_accumulate hdr0 regs1 2 2 (by decide)
  ⟨⟨(tA.1 (by decide)).1, (tA.1 (by decide)).2.1⟩,
   ⟨(tB.2.1 (by decide)).1, (tB.2.1 (by decide)).2.1⟩,
   ⟨(tA.2.2.1 (by decide)).1, (tA.2.2.1 (by decide)).2.2.1⟩,
   ⟨(tB.2.2.2 (by decide)).1, (tB.2.2.2 (by decide)).2.2.1⟩⟩

/-! ## Interrupt trigger mode -/

/-- A bit-field store is read back, for a value that fits the field. -/
theorem Field.ext_store (f : Field) (r v : Nat) (hf : f.fits32) (hv : v < 2 ^ f.size) :
    f.ext (f.store r v) = v := by
  apply Nat.eq_of_testBit_eq
  intro i
  unfold Field.fits32 at hf
  simp only [Field.ext, Field.store, Nat.testBit_shiftRight, Nat.testBit_and, Nat.testBit_or,
    Nat.testBit_xor, Field.testBit_ins, Field.testBit_mask, Nat.add_sub_cancel_left]
  by_cases hi : i < f.size
  · have h1 : f.offset + i < 32 := by omega
    simp [hi, h1]
  · have h5 : v.testBit i = false :=
      Nat.testBit_lt_two_pow (lt_of_lt_of_le hv (Nat.pow_le_pow_right (by decide) (by omega)))
    simp [hi, h5]

/-- A bit-field store keeps every bit outside the field. -/
theorem Field.testBit_store_outside (f : Field) (r v i : Nat)
    (hi : f.mask.testBit i = false) : (f.store r v).testBit i = r.testBit i := by
  have hins : (f.ins v).testBit i = false := by
    rw [Field.ins_eq, Nat.testBit_and, hi, Bool.and_false]
  simp only [Field.store, Nat.testBit_or, Nat.testBit_xor, Nat.testBit_and, hi, hins,
    Bool.and_false, Bool.xor_false, Bool.or_false]

/-- C10: for selector A (resp. B) the three trigger functions set the IS field of
`confa` (resp. `confb`) to 0, 1 and 2, whatever mode it held, and change nothing else: the
other bits of that register and all other registers, `ier` among them, are unchanged.
For every other selector value they leave the register block unchanged. -/
theorem interrupt_trigger_sets_is (h : Hdr) (acifa : avr32_acifa_t)
    (hsel : h.selOK) (his : h.isOK) :
    (sets_is_confa h acifa (acifa_enable_interrupt_inp_higher h acifa h.ACIFA_COMP_SELA) 0 ∧
      sets_is_confa h acifa (acifa_enable_interrupt_inp_lower h acifa h.ACIFA_COMP_SELA) 1 ∧
      sets_is_confa h acifa (acifa_enable_interrupt_toggle h acifa h.ACIFA_COMP_SELA) 2) ∧
    (sets_is_confb h acifa (acifa_enable_interrupt_inp_higher h acifa h.ACIFA_COMP_SELB) 0 ∧
      sets_is_confb h acifa (acifa_enable_interrupt_inp_lower h acifa h.ACIFA_COMP_SELB) 1 ∧
      sets_is_confb h acifa (acifa_enable_interrupt_toggle h acifa h.ACIFA_COMP_SELB) 2) ∧
    (∀ comp_sel, comp_sel % 256 ≠ h.ACIFA_COMP_SELA → comp_sel % 256 ≠ h.ACIFA_COMP_SELB →
      acifa_enable_interrupt_inp_higher h acifa comp_sel = acifa ∧
      acifa_enable_interrupt_inp_lower h acifa comp_sel = acifa ∧
      acifa_enable_interrupt_toggle h acifa comp_sel = acifa) := by
  obtain ⟨hA, hB, hAB⟩ := hsel
  obtain ⟨fa, sa, fb, sb⟩ := his
  have eA : h.ACIFA_COMP_SELA % 256 = h.ACIFA_COMP_SELA := Nat.mod_eq_of_lt hA
  have eB : h.ACIFA_COMP_SELB % 256 = h.ACIFA_COMP_SELB := Nat.mod_eq_of_lt hB
  have eBA : ¬ h.ACIFA_COMP_SELB = h.ACIFA_COMP_SELA := fun e => hAB e.symm
  have pa : (4 : Nat) ≤ 2 ^ h.CONFA_IS.size :=
    le_trans (by decide) (Nat.pow_le_pow_right (by decide) sa)
  have pb : (4 : Nat) ≤ 2 ^ h.CONFB_IS.size :=
    le_trans (by decide) (Nat.pow_le_pow_right (by decide) sb)
  have keyA : ∀ v, v < 4 → sets_is_confa h acifa (set_is h acifa h.ACIFA_COMP_SELA v) v := by
    intro v hv
    simp only [set_is, eA, if_true, sets_is_confa]
    exact ⟨Field.ext_store _ _ _ fa (by omega),
      fun i hi => Field.testBit_store_outside _ _ _ i hi, trivial⟩
  have keyB : ∀ v, v < 4 → sets_is_confb h acifa (set_is h acifa h.ACIFA_COMP_SELB v) v := by
    intro v hv
    simp only [set_is, eB, eBA, if_true, if_false, sets_is_confb]
    exact ⟨Field.ext_store _ _ _ fb (by omega),
      fun i hi => Field.testBit_store_outside _ _ _ i hi, trivial⟩
  refine ⟨⟨keyA 0 (by decide), keyA 1 (by decide), keyA 2 (by decide)⟩,
    ⟨keyB 0 (by decide), keyB 1 (by decide), keyB 2 (by decide)⟩, fun comp_sel h1 h2 => ?_⟩
  simp only [acifa_enable_interrupt_inp_higher, acifa_enable_interrupt_inp_lower,
    acifa_enable_interrupt_toggle, set_is, h1, h2, if_false, and_self]

/-- C10 at a concrete input: header `hdr0`, prior state `regs1` (`confa = 0xdeadbeef`, IS
field 3; `confb = 0x12345678`, IS field 0); selector 3 changes nothing. -/
theorem interrupt_trigger_sets_is_witness :
    hdr0.selOK ∧ hdr0.isOK ∧
    sets_is_confa hdr0 regs1 (acifa_enable_interrupt_toggle hdr0 regs1 1) 2 ∧
    sets_is_confb hdr0 regs1 (acifa_enable_interrupt_inp_lower hdr0 regs1 2) 1 ∧
    (acifa_enable_interrupt_toggle hdr0 regs1 1).confa = 0xdeadbeee ∧
    (acifa_enable_interrupt_inp_lower hdr0 regs1 2).confb = 0x12345679 ∧
    acifa_enable_interrupt_inp_higher hdr0 regs1 3 = regs1 :=
  have t := interrupt_trigger_sets_is hdr0 regs1 (by decide) (by decide)
  ⟨by decide, by decide, t.1.2.2, t.2.1.2.1, by decide, by decide,
    (t.2.2 3 (by decide) (by decide)).1⟩

/-! ## Isolation between Normal Mode and Window Mode -/

/-- A register that holds one field only reads zero in every field disjoint from it. -/
theorem Field.ext_ins_disjoint (f g : Field) (v : Nat) (hd : f.disjoint g) :
    g.ext (f.ins v) = 0 := by
  apply Nat.eq_of_testBit_eq
  intro i
  unfold Field.disjoint at hd
  simp only [Field.ext, Nat.testBit_shiftRight, Nat.testBit_and, Field.testBit_ins,
    Field.testBit_mask, Nat.add_sub_cancel_left, Nat.zero_testBit]
  by_cases hi : i < g.size
  · by_cases h3 : f.offset ≤ g.offset + i
    · have h4 : ¬ (g.offset + i - f.offset < f.size) := by omega
      simp [h4]
    · simp [h3]
  · simp [hi]

/-- C11, as amended: `acifa_configure` leaves `wconf`, and so its window-select field,
unchanged for every selector.  `acifa_configure_window` does not keep the Normal Mode
selections it does not own: it assigns `confa` and `confb` whole, so the negative-input
field of `confa` and the positive-input field of `confb` read zero afterwards, whatever
they held before. -/
theorem mode_isolation (h : Hdr) (acifa : avr32_acifa_t)
    (comp_sel input_p input_n common_input pb_hz : Nat)
    (hA : h.CONFA_INSELP.disjoint h.CONFA_INSELN)
    (hB : h.CONFB_INSELP.disjoint h.CONFB_INSELN) :
    (acifa_configure h acifa comp_sel input_p input_n pb_hz).wconf = acifa.wconf ∧
    h.WCONF_WINSEL.ext (acifa_configure h acifa comp_sel input_p input_n pb_hz).wconf
      = h.WCONF_WINSEL.ext acifa.wconf ∧
    h.CONFA_INSELN.ext
      (acifa_configure_window h acifa input_p input_n common_input pb_hz).confa = 0 ∧
    h.CONFB_INSELP.ext
      (acifa_configure_window h acifa input_p input_n common_input pb_hz).confb = 0 := by
  have e : (acifa_configure h acifa comp_sel input_p input_n pb_hz).wconf = acifa.wconf := by
    unfold acifa_configure
    split <;> rfl
  refine ⟨e, by rw [e], ?_, ?_⟩
  · exact Field.ext_ins_disjoint _ _ _ hA
  · exact Field.ext_ins_disjoint _ _ _ (Or.symm hB)

/-- C11, as amended, at a concrete input: header `hdr0`; Normal Mode on channel A with
inputs 5 and 9 and on channel B with inputs 6 and 3, then Window Mode with inputs 3, 4
and common input 1. -/
theorem mode_isolation_witness :
    (acifa_configure hdr0 regs1 1 5 9 66000000).wconf = regs1.wconf ∧
    hdr0.WCONF_WINSEL.ext (acifa_configure hdr0 regs1 1 5 9 66000000).wconf
      = hdr0.WCONF_WINSEL.ext regs1.wconf ∧
    hdr0.CONFA_INSELN.ext
      (acifa_configure_window hdr0
        (acifa_configure hdr0 (acifa_configure hdr0 regs0 1 5 9 66000000) 2 6 3 66000000)
        3 4 1 66000000).confa = 0 ∧
    hdr0.CONFB_INSELP.ext
      (acifa_configure_window hdr0
        (acifa_configure hdr0 (acifa_configure hdr0 regs0 1 5 9 66000000) 2 6 3 66000000)
        3 4 1 66000000).confb = 0 :=
  ⟨(mode_isolation hdr0 regs1 1 5 9 1 66000000 (by decide) (by decide)).1,
   (mode_isolation hdr0 regs1 1 5 9 1 66000000 (by decide) (by decide)).2.1,
   (mode_isolation hdr0
      (acifa_configure hdr0 (acifa_configure hdr0 regs0 1 5 9 66000000) 2 6 3 66000000)
      1 3 4 1 66000000 (by decide) (by decide)).2.2.1,
   (mode_isolation hdr0
      (acifa_configure hdr0 (acifa_configure hdr0 regs0 1 5 9 66000000) 2 6 3 66000000)
      1 3 4 1 66000000 (by decide) (by decide)).2.2.2⟩

/-- C11 fails as stated: after Normal Mode on channel A with inputs 5 and 9 and on
channel B with inputs 6 and 3, the negative-input field of `confa` holds 9 and the
positive-input field of `confb` holds 6; after `acifa_configure_window` with inputs 3
and 4 both fields hold 0. -/
theorem window_clears_normal_inputs :
    hdr0.CONFA_INSELN.ext
      (acifa_configure hdr0 (acifa_configure hdr0 regs0 1 5 9 66000000) 2 6 3 66000000).confa
        = 9 ∧
    hdr0.CONFB_INSELP.ext
      (acifa_configure hdr0 (acifa_configure hdr0 regs0 1 5 9 66000000) 2 6 3 66000000).confb
        = 6 ∧
    hdr0.CONFA_INSELN.ext
      (acifa_configure_window hdr0
        (acifa_configure hdr0 (acifa_configure hdr0 regs0 1 5 9 66000000) 2 6 3 66000000)
        3 4 1 66000000).confa ≠ 9 ∧
    hdr0.CONFB_INSELP.ext
      (acifa_configure_window hdr0
        (acifa_configure hdr0 (acifa_configure hdr0 regs0 1 5 9 66000000) 2 6 3 66000000)
        3 4 1 66000000).confb ≠ 6 := by
  decide

/-! ## Selector fallback -/

/-- C12: for every selector value other than `SELA` (`SELB`, Both or any other 8-bit
value) `acifa_configure`, `acifa_enable_output` and `acifa_configure_hysteresis` do
exactly what they do for `SELB`: they write `confb` (and `acifa_configure` the startup
time `sut`, as for every selector) and leave `confa` and every other register unchanged;
they return a register block for every selector value. -/
theorem selector_falls_back_to_B (h : Hdr) (acifa : avr32_acifa_t)
    (comp_sel input_p input_n pb_hz level : Nat) (hsel : h.selOK)
    (hne : comp_sel % 256 ≠ h.ACIFA_COMP_SELA) :
    (acifa_configure h acifa comp_sel input_p input_n pb_hz
        = acifa_configure h acifa h.ACIFA_COMP_SELB input_p input_n pb_hz ∧
      acifa_enable_output h acifa comp_sel = acifa_enable_output h acifa h.ACIFA_COMP_SELB ∧
      acifa_configure_hysteresis h acifa comp_sel level
        = acifa_configure_hysteresis h acifa h.ACIFA_COMP_SELB level) ∧
    ((acifa_configure h acifa comp_sel input_p input_n pb_hz).confa = acifa.confa ∧
      (acifa_enable_output h acifa comp_sel).confa = acifa.confa ∧
      (acifa_configure_hysteresis h acifa comp_sel level).confa = acifa.confa) ∧
    (acifa_configure h acifa comp_sel input_p input_n pb_hz =
        { acifa with
          confb := (acifa_configure h acifa comp_sel input_p input_n pb_hz).confb,
          sut := (acifa_configure h acifa comp_sel input_p input_n pb_hz).sut } ∧
      acifa_enable_output h acifa comp_sel =
        { acifa with confb := acifa.confb ||| h.CONFB_OEN_MASK } ∧
      acifa_configure_hysteresis h acifa comp_sel level =
        { acifa with
          confb := acifa.confb |||
            (((level % 256) <<< h.CONFB_HS.offset) &&& h.CONFB_HS.mask) })
    := by
  obtain ⟨_, hB, hAB⟩ := hsel
  have eB : ¬ h.ACIFA_COMP_SELB % 256 = h.ACIFA_COMP_SELA := by
    rw [Nat.mod_eq_of_lt hB]; exact fun e => hAB e.symm
  simp only [acifa_configure, acifa_enable_output, acifa_configure_hysteresis, hne, eB,
    if_false, Field.ins_eq, and_self]

/-- C12 at a concrete input: header `hdr0`, prior state `regs1`, selector 3 (Both) and the
unrecognized selector 200 against selector 2. -/
theorem selector_falls_back_to_B_witness :
    acifa_configure hdr0 regs1 3 5 9 66000000 = acifa_configure hdr0 regs1 2 5 9 66000000 ∧
    acifa_enable_output hdr0 regs1 200 = acifa_enable_output hdr0 regs1 2 ∧
    acifa_configure_hysteresis hdr0 regs1 3 1 = acifa_configure_hysteresis hdr0 regs1 2 1 ∧
    (acifa_configure hdr0 regs1 3 5 9 66000000).confa = 0xdeadbeef ∧
    (acifa_configure hdr0 regs1 3 5 9 66000000).confb = 0x90500 :=
  have t3 := selector_falls_back_to_B hdr0 regs1 3 5 9 66000000 1 (by decide) (by decide)
  have t200 := selector_falls_back_to_B hdr0 regs1 200 5 9 66000000 1 (by decide) (by decide)
  ⟨t3.1.1, t200.1.2.1, t3.1.2.2, t3.2.1.1, by decide⟩

/-! ## Whole-register overwrite by `acifa_configure` -/

/-- The value `acifa_configure` assigns has no bit outside the two input-select masks. -/
theorem testBit_ins_or_ins (f g : Field) (v w i : Nat)
    (hi : (f.ins v ||| g.ins w).testBit i = true) : (f.mask ||| g.mask).testBit i = true := by
  simp only [Nat.testBit_or, Field.testBit_ins, Field.testBit_mask, Bool.or_eq_true,
    Bool.and_eq_true, decide_eq_true_eq] at hi ⊢
  rcases hi with ⟨a, b, c, _⟩ | ⟨a, b, c, _⟩
  · exact Or.inl ⟨a, b, c⟩
  · exact Or.inr ⟨a, b, c⟩

/-- A register without bits outside `M` reads zero under every mask disjoint from `M`. -/
theorem and_eq_zero_of_outside (x m M : Nat)
    (hx : ∀ i, x.testBit i = true → M.testBit i = true) (hm : m &&& M = 0) :
    x &&& m = 0 := by
  apply Nat.eq_of_testBit_eq
  intro i
  have hb : (m &&& M).testBit i = false := by rw [hm]; exact Nat.zero_testBit i
  rw [Nat.testBit_and] at hb
  rw [Nat.testBit_and, Nat.zero_testBit]
  cases hxi : x.testBit i with
  | false => rfl
  | true =>
    rw [hx i hxi, Bool.and_true] at hb
    rw [hb]; rfl

/-- A field whose mask is disjoint from `M` decodes to zero in a register without bits
outside `M`. -/
theorem Field.ext_eq_zero_of_outside (f : Field) (x M : Nat)
    (hx : ∀ i, x.testBit i = true → M.testBit i = true) (hm : f.mask &&& M = 0) :
    f.ext x = 0 := by
  unfold Field.ext
  rw [and_eq_zero_of_outside x f.mask M hx hm, Nat.zero_shiftRight]

/-- C13: `acifa_configure` assigns the whole configuration register of the selected
channel (`confa` for `SELA`, `confb` otherwise): for every prior state and all inputs the
register afterwards has no bit outside `INSELP_MASK | INSELN_MASK`, so it reads zero under
every mask disjoint from these two, in particular the hysteresis level, the output-enable
bit and the interrupt trigger mode set earlier; the register of the other channel is
unchanged. -/
theorem acifa_configure_overwrites (h : Hdr) (acifa : avr32_acifa_t)
    (comp_sel input_p input_n pb_hz : Nat) :
    (comp_sel % 256 = h.ACIFA_COMP_SELA →
      (∀ i, (acifa_configure h acifa comp_sel input_p input_n pb_hz).confa.testBit i = true →
        (h.CONFA_INSELP.mask ||| h.CONFA_INSELN.mask).testBit i = true) ∧
      (∀ m, m &&& (h.CONFA_INSELP.mask ||| h.CONFA_INSELN.mask) = 0 →
        (acifa_configure h acifa comp_sel input_p input_n pb_hz).confa &&& m = 0) ∧
      (h.CONFA_HS.mask &&& (h.CONFA_INSELP.mask ||| h.CONFA_INSELN.mask) = 0 →
        h.CONFA_HS.ext (acifa_configure h acifa comp_sel input_p input_n pb_hz).confa = 0) ∧
      (h.CONFA_IS.mask &&& (h.CONFA_INSELP.mask ||| h.CONFA_INSELN.mask) = 0 →
        h.CONFA_IS.ext (acifa_configure h acifa comp_sel input_p input_n pb_hz).confa = 0) ∧
      (acifa_configure h acifa comp_sel input_p input_n pb_hz).confb = acifa.confb) ∧
    (comp_sel % 256 ≠ h.ACIFA_COMP_SELA →
      (∀ i, (acifa_configure h acifa comp_sel input_p input_n pb_hz).confb.testBit i = true →
        (h.CONFB_INSELP.mask ||| h.CONFB_INSELN.mask).testBit i = true) ∧
      (∀ m, m &&& (h.CONFB_INSELP.mask ||| h.CONFB_INSELN.mask) = 0 →
        (acifa_configure h acifa comp_sel input_p input_n pb_hz).confb &&& m = 0) ∧
      (h.CONFB_HS.mask &&& (h.CONFB_INSELP.mask ||| h.CONFB_INSELN.mask) = 0 →
        h.CONFB_HS.ext (acifa_configure h acifa comp_sel input_p input_n pb_hz).confb = 0) ∧
      (h.CONFB_IS.mask &&& (h.CONFB_INSELP.mask ||| h.CONFB_INSELN.mask) = 0 →
        h.CONFB_IS.ext (acifa_configure h acifa comp_sel input_p input_n pb_hz).confb = 0) ∧
      (acifa_configure h acifa comp_sel input_p input_n pb_hz).confa = acifa.confa) := by
  refine ⟨fun hs => ?_, fun hs => ?_⟩
  · have e : (acifa_configure h acifa comp_sel input_p input_n pb_hz).confa
        = h.CONFA_INSELP.ins (input_p % 256) ||| h.CONFA_INSELN.ins (input_n % 256) := by
      simp only [acifa_configure, hs, if_true]
    have e2 : (acifa_configure h acifa comp_sel input_p input_n pb_hz).confb = acifa.confb := by
      simp only [acifa_configure, hs, if_true]
    have out := fun i => testBit_ins_or_ins h.CONFA_INSELP h.CONFA_INSELN
      (input_p % 256) (input_n % 256) i
    rw [e]
    exact ⟨out, fun m hm => and_eq_zero_of_outside _ m _ out hm,
      fun hm => Field.ext_eq_zero_of_outside _ _ _ out hm,
      fun hm => Field.ext_eq_zero_of_outside _ _ _ out hm, e2⟩
  · have e : (acifa_configure h acifa comp_sel input_p input_n pb_hz).confb
        = h.CONFB_INSELP.ins (input_p % 256) ||| h.CONFB_INSELN.ins (input_n % 256) := by
      simp only [acifa_configure, hs, if_false]
    have e2 : (acifa_configure h acifa comp_sel input_p input_n pb_hz).confa = acifa.confa := by
      simp only [acifa_configure, hs, if_false]
    have out := fun i => testBit_ins_or_ins h.CONFB_INSELP h.CONFB_INSELN
      (input_p % 256) (input_n % 256) i
    rw [e]
    exact ⟨out, fun m hm => and_eq_zero_of_outside _ m _ out hm,
      fun hm => Field.ext_eq_zero_of_outside _ _ _ out hm,
      fun hm => Field.ext_eq_zero_of_outside _ _ _ out hm, e2⟩

/-- C13 at a concrete input: header `hdr0`, prior state `regs2` (channel A with
hysteresis 3, output enabled, toggle trigger: `confa = 0x3000082`; channel B with
hysteresis 1), then `acifa_configure` on channel A with inputs `0xff`, wider than the
4-bit field, and 9. -/
theorem acifa_configure_overwrites_witness :
    regs2.confa = 0x3000082 ∧
    (acifa_configure hdr0 regs2 1 0xff 9 66000000).confa = 0x90f00 ∧
    hdr0.CONFA_HS.ext (acifa_configure hdr0 regs2 1 0xff 9 66000000).confa = 0 ∧
    (acifa_configure hdr0 regs2 1 0xff 9 66000000).confa &&& hdr0.CONFA_OEN_MASK = 0 ∧
    hdr0.CONFA_IS.ext (acifa_configure hdr0 regs2 1 0xff 9 66000000).confa = 0 ∧
    (acifa_configure hdr0 regs2 1 0xff 9 66000000).confb = regs2.confb :=
  have t := (acifa_configure_overwrites hdr0 regs2 1 0xff 9 66000000).1 (by decide)
  ⟨by decide, by decide, t.2.2.1 (by decide), t.2.1 hdr0.CONFA_OEN_MASK (by decide),
    t.2.2.2.1 (by decide), t.2.2.2.2⟩

end AcifaDriver
